import Mathlib

/-! Verification development for the urdf2ply point-cloud conversion tool.
    The definitions below are a shallow embedding of src/urdf2ply/main.py:
    pure Python functions become Lean functions, and external effects (the
    file system, mesh loading, the numpy random generator, exceptions)
    become explicit parameters or outcome values. -/

set_option autoImplicit false

/-- Color triple as stored in a numpy uint8 array: three channel values. -/
abbrev ColorB := ℕ × ℕ × ℕ

/-- The POINT_SAMPLES constant from main.py. -/
def POINT_SAMPLES : ℕ := 50000

/-- The USE_COLLISION constant from main.py. -/
def USE_COLLISION : Bool := false

/-- The COLOR_MODE constant from main.py. -/
def COLOR_MODE : String := "custom"

/-- The CUSTOM_COLORS table from main.py. -/
def CUSTOM_COLORS : List (String × ColorB) :=
  [("base_link", (100, 100, 100)),
   ("L1", (255, 100, 100)),
   ("L2", (100, 255, 100)),
   ("L3", (100, 100, 255)),
   ("L4", (255, 255, 100)),
   ("L5", (255, 100, 255)),
   ("L6", (100, 255, 255))]

/-- Lookup in a Python dict modelled as an assignment list where a later
    assignment to the same key overwrites an earlier one. -/
def lookupColor (tbl : List (String × ColorB)) (name : String) : Option ColorB :=
  (tbl.reverse.find? (fun p => p.1 == name)).map Prod.snd

/-- Truncation of a rational toward zero, the rounding mode of a C cast. -/
def ratTrunc (x : ℚ) : ℤ := Int.tdiv x.num x.den

/-- Conversion of a float to numpy uint8 storage, as in
    np.array([v], dtype=np.uint8): a C cast truncates toward zero. The
    modular reduction only matters outside the in-range values that the
    claims quantify over. -/
def npUint8 (x : ℚ) : ℕ := (Int.emod (ratTrunc x) 256).toNat

/-- One row of the CSV file as seen by load_colors_from_csv: either it
    parses into a link name and three float channels, or reading it raises
    an exception (missing column, malformed float literal). -/
inductive CsvRow
  | ok (name : String) (r g b : ℚ)
  | bad

/-- Input to load_colors_from_csv: opening the file may itself raise,
    otherwise the reader yields a list of rows. -/
inductive CsvInput
  | openFailure
  | rows (rs : List CsvRow)

/-- Loop body of load_colors_from_csv: each parsed row is assigned into the
    dict; the first raising row aborts the loop, and the except handler
    returns the dict accumulated so far. -/
def loadColorsGo (acc : List (String × ColorB)) : List CsvRow → List (String × ColorB)
  | [] => acc
  | CsvRow.ok n r g b :: rest =>
      loadColorsGo (acc ++ [(n, (npUint8 (r * 255), npUint8 (g * 255), npUint8 (b * 255)))]) rest
  | CsvRow.bad :: _ => acc

/-- Model of load_colors_from_csv from main.py: every exception is caught,
    and the table accumulated so far is returned in every case. -/
def load_colors_from_csv : CsvInput → List (String × ColorB)
  | CsvInput.openFailure => []
  | CsvInput.rows rs => loadColorsGo [] rs

/-- Gray fallback for unknown link names in csv and custom modes. -/
def grayColor : ColorB := (150, 150, 150)

/-- Fallback color returned for an unrecognized color mode. -/
def fallbackColor : ColorB := (192, 192, 192)

/-- Model of get_color_for_link from main.py. The process-wide numpy
    generator is modelled by an explicit state of type S, with
    np.random.seed as seedOf and the raw uniform draw feeding
    np.random.randint as next3; randint (50, 256) is modelled from the
    numpy contract as 50 + raw % 206, three draws advancing the state once.
    hashFn models the Python builtin hash on strings. -/
def get_color_for_link {S : Type} (seedOf : ℕ → S) (next3 : S → (ℕ × ℕ × ℕ) × S)
    (hashFn : String → ℤ) (mode : String) (csvColors : Option (List (String × ColorB)))
    (rng : S) (linkName : String) : ColorB × S :=
  if mode = "csv" then
    match csvColors with
    | some tbl =>
        if tbl.isEmpty then (grayColor, rng)
        else
          match lookupColor tbl linkName with
          | some c => (c, rng)
          | none => (grayColor, rng)
    | none => (grayColor, rng)
  else if mode = "custom" then
    match lookupColor CUSTOM_COLORS linkName with
    | some c => (c, rng)
    | none => (grayColor, rng)
  else if mode = "random" then
    let s := seedOf (Int.emod (hashFn linkName) (2 ^ 32)).toNat
    let d := next3 s
    ((50 + d.1.1 % 206, 50 + d.1.2.1 % 206, 50 + d.1.2.2 % 206), d.2)
  else (fallbackColor, rng)

/-- Position or direction in 3-space, with rational coordinates standing in
    for floats. -/
abbrev Vec3 := Fin 3 → ℚ

/-- Homogeneous 4x4 transform matrix. -/
abbrev Mat4 := Matrix (Fin 4) (Fin 4) ℚ

/-- Scale matrix built in main.py: scale_matrix = np.eye(4) followed by
    scale_matrix[:3, :3] *= scale, an in-place broadcast that multiplies
    entry (i, j) of the upper-left 3x3 block by the j-th scale component. -/
def scaleMatrix (s : Vec3) : Mat4 :=
  Matrix.of fun i j =>
    if i.val < 3 then
      if h : j.val < 3 then (if i = j then 1 else 0) * s ⟨j.val, h⟩
      else if i = j then 1 else 0
    else if i = j then 1 else 0

/-- Scale matrix as the spec words it: the identity with the scale vector on
    the diagonal of the upper-left 3x3 block. -/
def specScaleMatrix (s : Vec3) : Mat4 :=
  Matrix.of fun i j =>
    if i = j then (if h : i.val < 3 then s ⟨i.val, h⟩ else 1) else 0

/-- Transform composition as main.py performs it: start from the link world
    transform, right-multiply by the visual origin when present, then
    right-multiply by the scale matrix when a mesh scale is present. -/
def combinedTransform (L : Mat4) (origin : Option Mat4) (scale : Option Vec3) : Mat4 :=
  let c := match origin with
    | some v => L * v
    | none => L
  match scale with
  | some s => c * scaleMatrix s
  | none => c

/-- Visual origin as the spec words it: the identity matrix when absent. -/
def specOriginMatrix : Option Mat4 → Mat4
  | some v => v
  | none => 1

/-- Transform composition as the spec words it: T = L * V * S with identity
    for the absent factors. -/
def specCombinedTransform (L : Mat4) (origin : Option Mat4) (scale : Option Vec3) : Mat4 :=
  L * specOriginMatrix origin *
    (match scale with
     | some s => specScaleMatrix s
     | none => 1)

/-- Homogeneous coordinate of a 3d point: the fourth component is 1. -/
def homCoord (p : Vec3) (k : Fin 4) : ℚ :=
  if h : k.val < 3 then p ⟨k.val, h⟩ else 1

/-- Action of a homogeneous 4x4 transform on a 3d point, as
    trimesh apply_transform performs it on each vertex. -/
def applyPoint (T : Mat4) (p : Vec3) : Vec3 :=
  fun i => ∑ k : Fin 4, T i.castSucc k * homCoord p k

/-- Triangular mesh, reduced to the vertex data the claims speak about. -/
structure Mesh where
  vertices : List Vec3

/-- Working copy of a mesh with the transform applied to every vertex; the
    source mesh is left untouched (mesh.copy() then apply_transform). -/
def applyTransform (T : Mat4) (m : Mesh) : Mesh :=
  Mesh.mk (m.vertices.map (applyPoint T))

/-- Mesh reference inside a visual: geom.mesh with its filename and
    optional scale. -/
structure MeshGeom where
  filename : String
  scale : Option Vec3

/-- Visual entry of a link: optional origin transform and optional mesh
    geometry. -/
structure Visual where
  origin : Option Mat4
  mesh : Option MeshGeom

/-- Link of the robot: name plus visual and collision geometry lists. -/
structure Link where
  name : String
  visuals : List Visual
  collisions : List Visual

/-- Geometry list selected by main.py: visuals unless USE_COLLISION. -/
def visualsOf (lk : Link) : List Visual :=
  if USE_COLLISION then lk.collisions else lk.visuals

/-- Outcome of trimesh load_mesh for one file: it may raise, return an
    object that is not a Trimesh, or return a triangular mesh. -/
inductive LoadResult
  | raises
  | notTrimesh
  | trimesh (m : Mesh)

/-- External world seen while processing one visual: whether the resolved
    mesh path exists, what loading returns, and whether the transform,
    sampling or export steps raise. -/
structure VisEnv where
  fileExists : String → Bool
  load : LoadResult
  transformRaises : Bool
  sampleRaises : Bool
  exportRaises : Bool

/-- Outcome of the body of the per-visual loop of main.py. -/
inductive VisOutcome
  | noMesh
  | missing
  | notTrimesh
  | errored
  | success (file : String) (pts : List Vec3) (cols : List ColorB)

/-- Mesh filename normalization of main.py: strip one leading parent
    directory segment. -/
def resolveMeshFilename (s : String) : String :=
  if s.startsWith "../" then s.drop 3 else s

/-- Per-visual output filename: the index suffix appears only when the link
    has more than one visual. -/
def outputFilename (linkName : String) (idx nvis : ℕ) : String :=
  if 1 < nvis then linkName ++ "_" ++ toString idx ++ ".ply"
  else linkName ++ ".ply"

/-- Body of the per-visual loop of main.py. The sampler is a parameter
    (trimesh surface sampling is delegated to the library); colorFor is the
    color assignment for the active mode; every exception inside the try
    block maps to the errored outcome, which the except clause turns into a
    continue. -/
def processVisual (sample : Mesh → ℕ → List Vec3) (colorFor : String → ColorB)
    (linkTf : Mat4) (linkName : String) (nvis idx : ℕ) (vis : Visual) (env : VisEnv) :
    VisOutcome :=
  match vis.mesh with
  | none => VisOutcome.noMesh
  | some gm =>
      if env.fileExists (resolveMeshFilename gm.filename) = false then VisOutcome.missing
      else
        match env.load with
        | LoadResult.raises => VisOutcome.errored
        | LoadResult.notTrimesh => VisOutcome.notTrimesh
        | LoadResult.trimesh m =>
            if env.transformRaises then VisOutcome.errored
            else
              let mt := applyTransform (combinedTransform linkTf vis.origin gm.scale) m
              if env.sampleRaises then VisOutcome.errored
              else
                let pts := sample mt POINT_SAMPLES
                let cols := List.replicate pts.length (colorFor linkName)
                if env.exportRaises then VisOutcome.errored
                else VisOutcome.success (outputFilename linkName idx nvis) pts cols

/-- Record of one per-visual PLY file written by point_cloud.export. -/
structure ExportRec where
  file : String
  pts : List Vec3
  cols : List ColorB

/-- Accumulated state of the main loop: files written so far plus the
    all_points and all_colors buffers. -/
structure LoopState where
  files : List ExportRec
  allPoints : List (List Vec3)
  allColors : List (List ColorB)

/-- One iteration of the per-visual loop: on success the export record is
    written and then the buffers are extended; every other outcome leaves
    the state unchanged and moves on. -/
def stepVisual (sample : Mesh → ℕ → List Vec3) (colorFor : String → ColorB)
    (linkTf : Mat4) (linkName : String) (nvis : ℕ) (envOf : ℕ → VisEnv)
    (st : LoopState) (iv : ℕ × Visual) : LoopState :=
  match processVisual sample colorFor linkTf linkName nvis iv.1 iv.2 (envOf iv.1) with
  | VisOutcome.success f pts cols =>
      LoopState.mk (st.files ++ [ExportRec.mk f pts cols])
        (st.allPoints ++ [pts]) (st.allColors ++ [cols])
  | _ => st

/-- Enumerated per-visual loop over one link. -/
def runVisuals (sample : Mesh → ℕ → List Vec3) (colorFor : String → ColorB)
    (linkTf : Mat4) (linkName : String) (nvis : ℕ) (envOf : ℕ → VisEnv)
    (ivs : List (ℕ × Visual)) (st : LoopState) : LoopState :=
  ivs.foldl (stepVisual sample colorFor linkTf linkName nvis envOf) st

/-- Per-link body of the main loop of main.py. -/
def processLink (sample : Mesh → ℕ → List Vec3) (colorFor : String → ColorB)
    (linkTfOf : String → Mat4) (envOf : String → ℕ → VisEnv)
    (st : LoopState) (lk : Link) : LoopState :=
  let vs := visualsOf lk
  if vs.isEmpty then st
  else runVisuals sample colorFor (linkTfOf lk.name) lk.name vs.length (envOf lk.name) vs.enum st

/-- Main loop of main.py over link_map. -/
def runLoop (sample : Mesh → ℕ → List Vec3) (colorFor : String → ColorB)
    (linkTfOf : String → Mat4) (envOf : String → ℕ → VisEnv) (links : List Link) :
    LoopState :=
  links.foldl (processLink sample colorFor linkTfOf envOf) (LoopState.mk [] [] [])

/-- Result of a run: per-visual files written, the optional combined cloud,
    and whether the no-points warning was printed. -/
structure RunResult where
  files : List ExportRec
  combined : Option (List Vec3 × List ColorB)
  noPointsWarning : Bool

/-- Final stage of main: vstack the buffers into the combined cloud when
    any points were produced, otherwise warn and write nothing. -/
def finalizeRun (st : LoopState) : RunResult :=
  if st.allPoints.isEmpty then RunResult.mk st.files none true
  else RunResult.mk st.files (some (st.allPoints.flatten, st.allColors.flatten)) false

/-- End-to-end model of the mesh-processing part of main. -/
def runMain (sample : Mesh → ℕ → List Vec3) (colorFor : String → ColorB)
    (linkTfOf : String → Mat4) (envOf : String → ℕ → VisEnv) (links : List Link) :
    RunResult :=
  finalizeRun (runLoop sample colorFor linkTfOf envOf links)

/-- Joint configuration main.py supplies to update_cfg: the constant
    6-vector whenever the model has at least one actuated joint, nothing
    otherwise. -/
def mainJointCfg (actuatedJointNames : List String) : Option (List ℚ) :=
  if 0 < actuatedJointNames.length then some [0, 1/2, -1/2, 0, 0, 0] else none

/-- Trivial sampler used to instantiate the library length contract in
    concrete checks: n copies of the origin. -/
def sampleConst : Mesh → ℕ → List Vec3 := fun _ n => List.replicate n (fun _ => 0)

/-- Constant color assignment used in concrete checks. -/
def colorConst : String → ColorB := fun _ => (0, 0, 0)

/-- Identity link transform assignment used in concrete checks. -/
def linkTfConst : String → Mat4 := fun _ => 1

/-- Environment where every external step succeeds on an empty mesh. -/
def envAllOk : VisEnv :=
  VisEnv.mk (fun _ => true) (LoadResult.trimesh (Mesh.mk [])) false false false

/-- Environment where only the export step raises. -/
def envExportFail : VisEnv :=
  VisEnv.mk (fun _ => true) (LoadResult.trimesh (Mesh.mk [])) false false true

/-- Visual entry with no mesh geometry. -/
def visNoMesh : Visual := Visual.mk none none

/-- Empty loop state. -/
def emptyState : LoopState := LoopState.mk [] [] []

/-- Invariant tying the global all_points and all_colors buffers to the
    per-visual export records. -/
def BuffersMatch (st : LoopState) : Prop :=
  st.allPoints = st.files.map ExportRec.pts ∧ st.allColors = st.files.map ExportRec.cols

/-- Invariant that every export record holds exactly POINT_SAMPLES points
    and as many colors. -/
def FilesSized (st : LoopState) : Prop :=
  ∀ r ∈ st.files, r.pts.length = POINT_SAMPLES ∧ r.cols.length = POINT_SAMPLES

lemma scaleMatrix_eq_spec (s : Vec3) : scaleMatrix s = specScaleMatrix s := by
  ext i j
  fin_cases i <;> fin_cases j <;>
    simp [scaleMatrix, specScaleMatrix] <;>
    (intro h; rw [dif_neg (by decide)])

/-- Claim C1: for every processed visual the transform applied to the
    working copy of the mesh equals the left-to-right composition
    T = L * V * S, with V the identity when the visual has no origin and S
    the diagonal scale matrix (identity when the mesh has no scale);
    combinedTransform is exactly the matrix processVisual applies to the
    mesh copy before sampling. -/
theorem transform_composition_matches_spec (L : Mat4) (origin : Option Mat4)
    (scale : Option Vec3) :
    combinedTransform L origin scale = specCombinedTransform L origin scale := by
  cases origin <;> cases scale <;>
    simp [combinedTransform, specCombinedTransform, specOriginMatrix,
      scaleMatrix_eq_spec, mul_one]

lemma ratTrunc_eq_floor (x : ℚ) (h : 0 ≤ x) : ratTrunc x = ⌊x⌋ := by
  have hnum : 0 ≤ x.num := Rat.num_nonneg.mpr h
  rw [ratTrunc, Int.tdiv_eq_ediv hnum (by positivity), Rat.floor_def]

lemma npUint8_unit (x : ℚ) (h0 : 0 ≤ x) (h1 : x ≤ 1) :
    npUint8 (x * 255) = (⌊x * 255⌋).toNat := by
  have hx0 : (0 : ℚ) ≤ x * 255 := by positivity
  have hfl0 : (0 : ℤ) ≤ ⌊x * 255⌋ := Int.floor_nonneg.mpr hx0
  have hle : x * 255 ≤ 255 := by nlinarith
  have hfl : ⌊x * 255⌋ ≤ 255 := by
    have h2 := Int.floor_le_floor hle
    simpa using h2
  rw [npUint8, ratTrunc_eq_floor _ hx0,
    show Int.emod ⌊x * 255⌋ 256 = ⌊x * 255⌋ from Int.emod_eq_of_lt hfl0 (by omega)]

lemma loadColorsGo_append_ok (rows1 : List CsvRow) (n : String) (r g b : ℚ) :
    (∀ row ∈ rows1, row ≠ CsvRow.bad) →
    ∀ acc, loadColorsGo acc (rows1 ++ [CsvRow.ok n r g b]) =
      loadColorsGo acc rows1 ++
        [(n, (npUint8 (r * 255), npUint8 (g * 255), npUint8 (b * 255)))] := by
  induction rows1 with
  | nil => intro _ acc; rfl
  | cons row rest ih =>
      intro hok acc
      cases row with
      | ok n2 r2 g2 b2 =>
          exact ih (fun x hx => hok x (List.mem_cons_of_mem _ hx)) _
      | bad => exact absurd rfl (hok CsvRow.bad (List.mem_cons_self _ _))

lemma loadColorsGo_stop (rows1 rest : List CsvRow) :
    (∀ row ∈ rows1, row ≠ CsvRow.bad) →
    ∀ acc, loadColorsGo acc (rows1 ++ CsvRow.bad :: rest) = loadColorsGo acc rows1 := by
  induction rows1 with
  | nil => intro _ acc; rfl
  | cons row rows ih =>
      intro hok acc
      cases row with
      | ok n2 r2 g2 b2 =>
          exact ih (fun x hx => hok x (List.mem_cons_of_mem _ hx)) _
      | bad => exact absurd rfl (hok CsvRow.bad (List.mem_cons_self _ _))

lemma lookupColor_append_self (tbl : List (String × ColorB)) (n : String) (c : ColorB) :
    lookupColor (tbl ++ [(n, c)]) n = some c := by
  simp [lookupColor]

/-- Claim C4 counterexample: for the CSV row (L1, 0.003, 0, 0) the stored
    red channel is 0, while rounding 0.003 * 255 = 0.765 to the nearest
    integer gives 1; the conversion truncates instead of rounding. -/
theorem csv_color_not_rounded :
    lookupColor (load_colors_from_csv (CsvInput.rows [CsvRow.ok "L1" (mkRat 3 1000) 0 0]))
        "L1" = some (0, 0, 0) ∧
    round ((mkRat 3 1000 : ℚ) * 255) = 1 ∧ (0 : ℕ) ≠ 1 := by
  refine ⟨?_, by norm_num [round_eq], by decide⟩
  have h : (mkRat 3 1000 : ℚ) * 255 = mkRat 765 1000 := by norm_num
  have h0 : (0 : ℚ) * 255 = 0 := by norm_num
  simp only [load_colors_from_csv, loadColorsGo, h, h0]
  decide

/-- Claim C4 amended: for every CSV row with link name n and normalized
    channel values in the unit interval, the color stored for n is each
    channel scaled by 255 and truncated toward zero (the floor, for these
    nonnegative values), not rounded to the nearest integer. -/
theorem csv_color_truncates (rows1 : List CsvRow) (n : String) (r g b : ℚ)
    (hok : ∀ row ∈ rows1, row ≠ CsvRow.bad)
    (hr0 : 0 ≤ r) (hr1 : r ≤ 1) (hg0 : 0 ≤ g) (hg1 : g ≤ 1) (hb0 : 0 ≤ b) (hb1 : b ≤ 1) :
    lookupColor (load_colors_from_csv (CsvInput.rows (rows1 ++ [CsvRow.ok n r g b]))) n =
      some ((⌊r * 255⌋).toNat, (⌊g * 255⌋).toNat, (⌊b * 255⌋).toNat) := by
  simp only [load_colors_from_csv]
  rw [loadColorsGo_append_ok rows1 n r g b hok, lookupColor_append_self,
    npUint8_unit r hr0 hr1, npUint8_unit g hg0 hg1, npUint8_unit b hb0 hb1]

theorem csv_color_truncates_check :
    (∀ row ∈ ([] : List CsvRow), row ≠ CsvRow.bad) ∧
    lookupColor
        (load_colors_from_csv (CsvInput.rows ([] ++ [CsvRow.ok "L1" (mkRat 1 2) 0 1]))) "L1" =
      some ((⌊(mkRat 1 2 : ℚ) * 255⌋).toNat, (⌊(0 : ℚ) * 255⌋).toNat,
        (⌊(1 : ℚ) * 255⌋).toNat) :=
  ⟨by simp,
   csv_color_truncates [] "L1" (mkRat 1 2) 0 1 (by simp) (by norm_num) (by norm_num)
     (by norm_num) (by norm_num) (by norm_num) (by norm_num)⟩

/-- Claim C5 counterexample: a CSV whose second row is malformed leaves the
    first parsed row in the table, so the table is not empty and looking up
    that link returns its CSV color, not the gray fallback. -/
theorem csv_failure_table_not_empty :
    load_colors_from_csv
        (CsvInput.rows [CsvRow.ok "L1" (mkRat 1 2) (mkRat 1 2) (mkRat 1 2), CsvRow.bad]) =
      [("L1", (127, 127, 127))] ∧
    (get_color_for_link (fun k => k) (fun s => ((0, 0, 0), s)) (fun _ => (0 : ℤ)) "csv"
        (some (load_colors_from_csv
          (CsvInput.rows [CsvRow.ok "L1" (mkRat 1 2) (mkRat 1 2) (mkRat 1 2), CsvRow.bad])))
        (0 : ℕ) "L1").1 = (127, 127, 127) ∧
    ((127, 127, 127) : ColorB) ≠ grayColor := by
  have h : (mkRat 1 2 : ℚ) * 255 = mkRat 255 2 := by norm_num
  have htbl : load_colors_from_csv
      (CsvInput.rows [CsvRow.ok "L1" (mkRat 1 2) (mkRat 1 2) (mkRat 1 2), CsvRow.bad]) =
      [("L1", (127, 127, 127))] := by
    simp only [load_colors_from_csv, loadColorsGo, h]
    decide
  refine ⟨htbl, ?_, by decide⟩
  rw [htbl]
  decide

/-- Claim C5 amended: loading never raises and returns exactly the rows
    parsed before the first failure (an empty table when the file cannot be
    opened), and in csv mode an open failure makes every lookup fall back
    to gray. -/
theorem csv_failure_keeps_prefix_and_gray (rows1 rest : List CsvRow)
    (hok : ∀ row ∈ rows1, row ≠ CsvRow.bad) :
    load_colors_from_csv (CsvInput.rows (rows1 ++ CsvRow.bad :: rest)) =
      load_colors_from_csv (CsvInput.rows rows1) ∧
    load_colors_from_csv CsvInput.openFailure = [] ∧
    (∀ (S : Type) (seedOf : ℕ → S) (next3 : S → (ℕ × ℕ × ℕ) × S) (hashFn : String → ℤ)
        (rng : S) (name : String),
      (get_color_for_link seedOf next3 hashFn "csv"
          (some (load_colors_from_csv CsvInput.openFailure)) rng name).1 = grayColor) := by
  refine ⟨?_, rfl, ?_⟩
  · simp only [load_colors_from_csv]
    exact loadColorsGo_stop rows1 rest hok []
  · intro S seedOf next3 hashFn rng name
    rfl

theorem csv_failure_keeps_prefix_and_gray_check :
    (∀ row ∈ [CsvRow.ok "L1" (mkRat 1 2) 0 0], row ≠ CsvRow.bad) ∧
    load_colors_from_csv
        (CsvInput.rows ([CsvRow.ok "L1" (mkRat 1 2) 0 0] ++ CsvRow.bad :: [])) =
      load_colors_from_csv (CsvInput.rows [CsvRow.ok "L1" (mkRat 1 2) 0 0]) ∧
    load_colors_from_csv CsvInput.openFailure = [] ∧
    (∀ (S : Type) (seedOf : ℕ → S) (next3 : S → (ℕ × ℕ × ℕ) × S) (hashFn : String → ℤ)
        (rng : S) (name : String),
      (get_color_for_link seedOf next3 hashFn "csv"
          (some (load_colors_from_csv CsvInput.openFailure)) rng name).1 = grayColor) :=
  ⟨by intro row hr; simp at hr; subst hr; simp,
   csv_failure_keeps_prefix_and_gray [CsvRow.ok "L1" (mkRat 1 2) 0 0] []
     (by intro row hr; simp at hr; subst hr; simp)⟩

lemma get_color_random {S : Type} (seedOf : ℕ → S) (next3 : S → (ℕ × ℕ × ℕ) × S)
    (hashFn : String → ℤ) (csvColors : Option (List (String × ColorB))) (rng : S)
    (name : String) :
    get_color_for_link seedOf next3 hashFn "random" csvColors rng name =
      ((50 + (next3 (seedOf (Int.emod (hashFn name) (2 ^ 32)).toNat)).1.1 % 206,
        50 + (next3 (seedOf (Int.emod (hashFn name) (2 ^ 32)).toNat)).1.2.1 % 206,
        50 + (next3 (seedOf (Int.emod (hashFn name) (2 ^ 32)).toNat)).1.2.2 % 206),
       (next3 (seedOf (Int.emod (hashFn name) (2 ^ 32)).toNat)).2) := by
  simp [get_color_for_link]

/-- Claim C6: in random mode the returned color is a pure function of the
    link name — it does not depend on the incoming state of the
    process-wide generator, because the generator is reseeded from the name
    hash before drawing — and every channel lies in the inclusive range
    from 50 to 255. -/
theorem random_color_state_independent_and_in_range {S : Type}
    (seedOf : ℕ → S) (next3 : S → (ℕ × ℕ × ℕ) × S) (hashFn : String → ℤ)
    (csvColors : Option (List (String × ColorB))) (rng1 rng2 : S) (linkName : String) :
    (get_color_for_link seedOf next3 hashFn "random" csvColors rng1 linkName).1 =
      (get_color_for_link seedOf next3 hashFn "random" csvColors rng2 linkName).1 ∧
    50 ≤ (get_color_for_link seedOf next3 hashFn "random" csvColors rng1 linkName).1.1 ∧
    (get_color_for_link seedOf next3 hashFn "random" csvColors rng1 linkName).1.1 ≤ 255 ∧
    50 ≤ (get_color_for_link seedOf next3 hashFn "random" csvColors rng1 linkName).1.2.1 ∧
    (get_color_for_link seedOf next3 hashFn "random" csvColors rng1 linkName).1.2.1 ≤ 255 ∧
    50 ≤ (get_color_for_link seedOf next3 hashFn "random" csvColors rng1 linkName).1.2.2 ∧
    (get_color_for_link seedOf next3 hashFn "random" csvColors rng1 linkName).1.2.2 ≤ 255 := by
  have hb : ∀ x : ℕ, 50 ≤ 50 + x % 206 ∧ 50 + x % 206 ≤ 255 := by
    intro x
    have hx := Nat.mod_lt x (show 0 < 206 by norm_num)
    omega
  rw [get_color_random, get_color_random]
  exact ⟨rfl, (hb _).1, (hb _).2, (hb _).1, (hb _).2, (hb _).1, (hb _).2⟩

/-- Claim C7: unknown link names yield gray in csv mode and in custom mode,
    and any mode other than custom, csv and random yields the fixed
    fallback color for every link name. -/
theorem unknown_name_gray_and_unknown_mode_fallback {S : Type}
    (seedOf : ℕ → S) (next3 : S → (ℕ × ℕ × ℕ) × S) (hashFn : String → ℤ)
    (csvColors : Option (List (String × ColorB))) (rng : S) (linkName : String) :
    ((∀ tbl, csvColors = some tbl → lookupColor tbl linkName = none) →
      (get_color_for_link seedOf next3 hashFn "csv" csvColors rng linkName).1 = grayColor) ∧
    (lookupColor CUSTOM_COLORS linkName = none →
      (get_color_for_link seedOf next3 hashFn "custom" csvColors rng linkName).1 =
        grayColor) ∧
    (∀ mode : String, mode ≠ "custom" → mode ≠ "csv" → mode ≠ "random" →
      (get_color_for_link seedOf next3 hashFn mode csvColors rng linkName).1 =
        fallbackColor) := by
  refine ⟨?_, ?_, ?_⟩
  · intro habs
    cases hc : csvColors with
    | none => simp [get_color_for_link, hc]
    | some tbl =>
        have hl := habs tbl hc
        cases htbl : tbl.isEmpty <;> simp [get_color_for_link, hc, htbl, hl]
  · intro hl
    simp [get_color_for_link, hl]
  · intro mode h1 h2 h3
    simp [get_color_for_link, h1, h2, h3]

theorem unknown_name_gray_and_unknown_mode_fallback_check :
    (get_color_for_link (fun k => k) (fun s => ((0, 0, 0), s)) (fun _ => (0 : ℤ)) "csv"
        (some []) (0 : ℕ) "zz").1 = grayColor ∧
    (get_color_for_link (fun k => k) (fun s => ((0, 0, 0), s)) (fun _ => (0 : ℤ)) "custom"
        (some []) (0 : ℕ) "zz").1 = grayColor ∧
    (get_color_for_link (fun k => k) (fun s => ((0, 0, 0), s)) (fun _ => (0 : ℤ)) "weird"
        (some []) (0 : ℕ) "zz").1 = fallbackColor := by
  obtain ⟨h1, h2, h3⟩ :=
    unknown_name_gray_and_unknown_mode_fallback (fun k => k) (fun s => ((0, 0, 0), s))
      (fun _ => (0 : ℤ)) (some ([] : List (String × ColorB))) (0 : ℕ) "zz"
  exact ⟨h1 (by intro tbl ht; cases ht; rfl), h2 (by decide),
    h3 "weird" (by decide) (by decide) (by decide)⟩

/-- Claim C3 counterexample: for a model with exactly one actuated joint
    the program still supplies the constant 6-element configuration, whose
    length does not match the actuated joint count. -/
theorem joint_cfg_length_mismatch :
    (mainJointCfg ["joint1"]).map List.length = some 6 ∧
    (mainJointCfg ["joint1"]).map List.length ≠ some (["joint1"].length) := by
  have h6 : (mainJointCfg ["joint1"]).map List.length = some 6 := rfl
  constructor
  · exact h6
  · rw [h6]
    simp

/-- Claim C3 amended: whenever the model has at least one actuated joint,
    the program supplies the constant 6-element vector 0, 0.5, -0.5, 0, 0,
    0; its length matches the actuated joint count exactly when that count
    is 6, as it is for the bundled PAROL6 model. -/
theorem joint_cfg_constant_length (names : List String) (h : 0 < names.length) :
    ∃ c, mainJointCfg names = some c ∧ c.length = 6 ∧
      (names.length = 6 → c.length = names.length) := by
  refine ⟨[0, 1/2, -1/2, 0, 0, 0], ?_, rfl, ?_⟩
  · simp [mainJointCfg, h]
  · intro h6
    simp [h6]

theorem joint_cfg_constant_length_check :
    0 < (["j1"] : List String).length ∧
    ∃ c, mainJointCfg ["j1"] = some c ∧ c.length = 6 ∧
      ((["j1"] : List String).length = 6 → c.length = (["j1"] : List String).length) :=
  ⟨by decide, joint_cfg_constant_length ["j1"] (by decide)⟩

lemma stepVisual_of_not_success {sample : Mesh → ℕ → List Vec3} {colorFor : String → ColorB}
    {linkTf : Mat4} {linkName : String} {nvis : ℕ} {envOf : ℕ → VisEnv} {st : LoopState}
    {idx : ℕ} {vis : Visual}
    (h : ∀ f pts cols,
      processVisual sample colorFor linkTf linkName nvis idx vis (envOf idx) ≠
        VisOutcome.success f pts cols) :
    stepVisual sample colorFor linkTf linkName nvis envOf st (idx, vis) = st := by
  cases hp : processVisual sample colorFor linkTf linkName nvis idx vis (envOf idx) with
  | success f pts cols => exact absurd hp (h f pts cols)
  | noMesh => simp [stepVisual, hp]
  | missing => simp [stepVisual, hp]
  | notTrimesh => simp [stepVisual, hp]
  | errored => simp [stepVisual, hp]

lemma stepVisual_of_success {sample : Mesh → ℕ → List Vec3} {colorFor : String → ColorB}
    {linkTf : Mat4} {linkName : String} {nvis : ℕ} {envOf : ℕ → VisEnv} {st : LoopState}
    {idx : ℕ} {vis : Visual} {f : String} {pts : List Vec3} {cols : List ColorB}
    (h : processVisual sample colorFor linkTf linkName nvis idx vis (envOf idx) =
      VisOutcome.success f pts cols) :
    stepVisual sample colorFor linkTf linkName nvis envOf st (idx, vis) =
      LoopState.mk (st.files ++ [ExportRec.mk f pts cols]) (st.allPoints ++ [pts])
        (st.allColors ++ [cols]) := by
  simp [stepVisual, h]

lemma processVisual_success_sizes {sample : Mesh → ℕ → List Vec3} {colorFor : String → ColorB}
    {linkTf : Mat4} {linkName : String} {nvis idx : ℕ} {vis : Visual} {env : VisEnv}
    {f : String} {pts : List Vec3} {cols : List ColorB}
    (hsample : ∀ m k, (sample m k).length = k)
    (h : processVisual sample colorFor linkTf linkName nvis idx vis env =
      VisOutcome.success f pts cols) :
    pts.length = POINT_SAMPLES ∧ cols.length = POINT_SAMPLES := by
  simp only [processVisual] at h
  repeat' split at h
  all_goals try (exact VisOutcome.noConfusion h)
  injection h with h1 h2 h3
  subst h2
  subst h3
  refine ⟨hsample _ _, ?_⟩
  simp [hsample]

lemma processVisual_not_success_of_export {sample : Mesh → ℕ → List Vec3}
    {colorFor : String → ColorB} {linkTf : Mat4} {linkName : String} {nvis idx : ℕ}
    {vis : Visual} {env : VisEnv} (hexp : env.exportRaises = true) :
    ∀ f pts cols,
      processVisual sample colorFor linkTf linkName nvis idx vis env ≠
        VisOutcome.success f pts cols := by
  intro f pts cols h
  simp only [processVisual] at h
  repeat' split at h
  all_goals simp_all

lemma buffersMatch_step {sample : Mesh → ℕ → List Vec3} {colorFor : String → ColorB}
    {linkTf : Mat4} {linkName : String} {nvis : ℕ} {envOf : ℕ → VisEnv} {st : LoopState}
    (iv : ℕ × Visual) (h : BuffersMatch st) :
    BuffersMatch (stepVisual sample colorFor linkTf linkName nvis envOf st iv) := by
  obtain ⟨idx, vis⟩ := iv
  cases hp : processVisual sample colorFor linkTf linkName nvis idx vis (envOf idx) with
  | success f pts cols =>
      rw [stepVisual_of_success hp]
      obtain ⟨h1, h2⟩ := h
      exact ⟨by simp [h1], by simp [h2]⟩
  | noMesh =>
      rw [stepVisual_of_not_success (fun f pts cols hc => by
        rw [hp] at hc; exact VisOutcome.noConfusion hc)]
      exact h
  | missing =>
      rw [stepVisual_of_not_success (fun f pts cols hc => by
        rw [hp] at hc; exact VisOutcome.noConfusion hc)]
      exact h
  | notTrimesh =>
      rw [stepVisual_of_not_success (fun f pts cols hc => by
        rw [hp] at hc; exact VisOutcome.noConfusion hc)]
      exact h
  | errored =>
      rw [stepVisual_of_not_success (fun f pts cols hc => by
        rw [hp] at hc; exact VisOutcome.noConfusion hc)]
      exact h

lemma buffersMatch_runVisuals {sample : Mesh → ℕ → List Vec3} {colorFor : String → ColorB}
    {linkTf : Mat4} {linkName : String} {nvis : ℕ} {envOf : ℕ → VisEnv}
    (ivs : List (ℕ × Visual)) :
    ∀ st, BuffersMatch st →
      BuffersMatch (runVisuals sample colorFor linkTf linkName nvis envOf ivs st) := by
  induction ivs with
  | nil => exact fun st h => h
  | cons iv rest ih => exact fun st h => ih _ (buffersMatch_step iv h)

lemma buffersMatch_processLink {sample : Mesh → ℕ → List Vec3} {colorFor : String → ColorB}
    {linkTfOf : String → Mat4} {envOf : String → ℕ → VisEnv} (lk : Link) (st : LoopState)
    (h : BuffersMatch st) :
    BuffersMatch (processLink sample colorFor linkTfOf envOf st lk) := by
  cases hv : (visualsOf lk).isEmpty with
  | true => simpa [processLink, hv] using h
  | false =>
      simp only [processLink, hv]
      exact buffersMatch_runVisuals _ _ h

lemma buffersMatch_runLoop (sample : Mesh → ℕ → List Vec3) (colorFor : String → ColorB)
    (linkTfOf : String → Mat4) (envOf : String → ℕ → VisEnv) (links : List Link) :
    BuffersMatch (runLoop sample colorFor linkTfOf envOf links) := by
  have hgen : ∀ st, BuffersMatch st →
      BuffersMatch (links.foldl (processLink sample colorFor linkTfOf envOf) st) := by
    induction links with
    | nil => exact fun st h => h
    | cons lk rest ih => exact fun st h => ih _ (buffersMatch_processLink lk st h)
  exact hgen (LoopState.mk [] [] []) ⟨rfl, rfl⟩

lemma filesSized_step {sample : Mesh → ℕ → List Vec3} {colorFor : String → ColorB}
    {linkTf : Mat4} {linkName : String} {nvis : ℕ} {envOf : ℕ → VisEnv} {st : LoopState}
    (iv : ℕ × Visual) (hsample : ∀ m k, (sample m k).length = k) (h : FilesSized st) :
    FilesSized (stepVisual sample colorFor linkTf linkName nvis envOf st iv) := by
  obtain ⟨idx, vis⟩ := iv
  cases hp : processVisual sample colorFor linkTf linkName nvis idx vis (envOf idx) with
  | success f pts cols =>
      rw [stepVisual_of_success hp]
      intro r hr
      rcases List.mem_append.mp hr with hr1 | hr2
      · exact h r hr1
      · obtain rfl := List.mem_singleton.mp hr2
        exact processVisual_success_sizes hsample hp
  | noMesh =>
      rw [stepVisual_of_not_success (fun f pts cols hc => by
        rw [hp] at hc; exact VisOutcome.noConfusion hc)]
      exact h
  | missing =>
      rw [stepVisual_of_not_success (fun f pts cols hc => by
        rw [hp] at hc; exact VisOutcome.noConfusion hc)]
      exact h
  | notTrimesh =>
      rw [stepVisual_of_not_success (fun f pts cols hc => by
        rw [hp] at hc; exact VisOutcome.noConfusion hc)]
      exact h
  | errored =>
      rw [stepVisual_of_not_success (fun f pts cols hc => by
        rw [hp] at hc; exact VisOutcome.noConfusion hc)]
      exact h

lemma filesSized_runVisuals {sample : Mesh → ℕ → List Vec3} {colorFor : String → ColorB}
    {linkTf : Mat4} {linkName : String} {nvis : ℕ} {envOf : ℕ → VisEnv}
    (ivs : List (ℕ × Visual)) (hsample : ∀ m k, (sample m k).length = k) :
    ∀ st, FilesSized st →
      FilesSized (runVisuals sample colorFor linkTf linkName nvis envOf ivs st) := by
  induction ivs with
  | nil => exact fun st h => h
  | cons iv rest ih => exact fun st h => ih _ (filesSized_step iv hsample h)

lemma filesSized_processLink {sample : Mesh → ℕ → List Vec3} {colorFor : String → ColorB}
    {linkTfOf : String → Mat4} {envOf : String → ℕ → VisEnv} (lk : Link) (st : LoopState)
    (hsample : ∀ m k, (sample m k).length = k) (h : FilesSized st) :
    FilesSized (processLink sample colorFor linkTfOf envOf st lk) := by
  cases hv : (visualsOf lk).isEmpty with
  | true => simpa [processLink, hv] using h
  | false =>
      simp only [processLink, hv]
      exact filesSized_runVisuals _ hsample _ h

lemma filesSized_runLoop (sample : Mesh → ℕ → List Vec3) (colorFor : String → ColorB)
    (linkTfOf : String → Mat4) (envOf : String → ℕ → VisEnv) (links : List Link)
    (hsample : ∀ m k, (sample m k).length = k) :
    FilesSized (runLoop sample colorFor linkTfOf envOf links) := by
  have hgen : ∀ st, FilesSized st →
      FilesSized (links.foldl (processLink sample colorFor linkTfOf envOf) st) := by
    induction links with
    | nil => exact fun st h => h
    | cons lk rest ih => exact fun st h => ih _ (filesSized_processLink lk st hsample h)
  exact hgen (LoopState.mk [] [] []) (fun r hr => absurd hr (List.not_mem_nil r))

lemma finalizeRun_files (st : LoopState) : (finalizeRun st).files = st.files := by
  unfold finalizeRun
  split <;> rfl

lemma finalizeRun_combined {st : LoopState} {pts : List Vec3} {cols : List ColorB}
    (h : (finalizeRun st).combined = some (pts, cols)) :
    pts = st.allPoints.flatten ∧ cols = st.allColors.flatten := by
  unfold finalizeRun at h
  split at h
  · simp at h
  · simp at h
    exact ⟨h.1.symm, h.2.symm⟩

/-- Claim C2: assuming the library contract that surface sampling returns
    exactly the requested number of points, every successfully exported
    per-visual cloud holds exactly POINT_SAMPLES points and as many colors,
    and the combined cloud is exactly the concatenation of the per-visual
    point buffers, so its point count is the sum of the per-visual
    counts. -/
theorem per_visual_and_combined_point_counts
    (sample : Mesh → ℕ → List Vec3) (colorFor : String → ColorB)
    (linkTfOf : String → Mat4) (envOf : String → ℕ → VisEnv) (links : List Link)
    (hsample : ∀ m k, (sample m k).length = k) :
    (∀ r ∈ (runMain sample colorFor linkTfOf envOf links).files,
        r.pts.length = POINT_SAMPLES ∧ r.cols.length = POINT_SAMPLES) ∧
    (∀ pts cols,
        (runMain sample colorFor linkTfOf envOf links).combined = some (pts, cols) →
          pts = ((runMain sample colorFor linkTfOf envOf links).files.map
            ExportRec.pts).flatten ∧
          pts.length = ((runMain sample colorFor linkTfOf envOf links).files.map
            (fun r => r.pts.length)).sum) := by
  have hsz := filesSized_runLoop sample colorFor linkTfOf envOf links hsample
  have hbm := buffersMatch_runLoop sample colorFor linkTfOf envOf links
  constructor
  · intro r hr
    rw [runMain, finalizeRun_files] at hr
    exact hsz r hr
  · intro pts cols hc
    rw [runMain] at hc
    obtain ⟨hp, _⟩ := finalizeRun_combined hc
    have hfiles : pts = ((runMain sample colorFor linkTfOf envOf links).files.map
        ExportRec.pts).flatten := by
      rw [runMain, finalizeRun_files, hp, hbm.1]
    refine ⟨hfiles, ?_⟩
    rw [hfiles, List.length_flatten, List.map_map]
    rfl

theorem per_visual_and_combined_point_counts_check :
    (∀ m k, (sampleConst m k).length = k) ∧
    ((∀ r ∈ (runMain sampleConst colorConst linkTfConst (fun _ _ => envAllOk) []).files,
        r.pts.length = POINT_SAMPLES ∧ r.cols.length = POINT_SAMPLES) ∧
     (∀ pts cols,
        (runMain sampleConst colorConst linkTfConst (fun _ _ => envAllOk) []).combined =
          some (pts, cols) →
          pts = ((runMain sampleConst colorConst linkTfConst (fun _ _ => envAllOk) []).files.map
            ExportRec.pts).flatten ∧
          pts.length =
            ((runMain sampleConst colorConst linkTfConst (fun _ _ => envAllOk) []).files.map
              (fun r => r.pts.length)).sum)) :=
  ⟨fun m k => by simp [sampleConst],
   per_visual_and_combined_point_counts sampleConst colorConst linkTfConst
     (fun _ _ => envAllOk) [] (fun m k => by simp [sampleConst])⟩

/-- Claim C8: a visual whose processing fails recoverably — no mesh
    geometry, missing resolved file, a load result that is not a single
    triangular mesh, or an exception raised during transform, sampling or
    export — leaves the loop state unchanged, and the per-visual loop on
    that visual followed by the remaining visuals equals the loop on the
    remaining visuals alone: the failure is skipped and processing
    continues, never aborting the run. -/
theorem failed_visual_skipped_loop_continues
    (sample : Mesh → ℕ → List Vec3) (colorFor : String → ColorB) (linkTf : Mat4)
    (linkName : String) (nvis : ℕ) (envOf : ℕ → VisEnv) (st : LoopState)
    (idx : ℕ) (vis : Visual) (rest : List (ℕ × Visual))
    (hfail : ∀ f pts cols,
      processVisual sample colorFor linkTf linkName nvis idx vis (envOf idx) ≠
        VisOutcome.success f pts cols) :
    stepVisual sample colorFor linkTf linkName nvis envOf st (idx, vis) = st ∧
    runVisuals sample colorFor linkTf linkName nvis envOf ((idx, vis) :: rest) st =
      runVisuals sample colorFor linkTf linkName nvis envOf rest st := by
  have h1 := @stepVisual_of_not_success sample colorFor linkTf linkName nvis envOf st idx
    vis hfail
  refine ⟨h1, ?_⟩
  show runVisuals sample colorFor linkTf linkName nvis envOf rest
      (stepVisual sample colorFor linkTf linkName nvis envOf st (idx, vis)) =
    runVisuals sample colorFor linkTf linkName nvis envOf rest st
  rw [h1]

theorem failed_visual_skipped_loop_continues_check :
    stepVisual sampleConst colorConst 1 "L6" 1 (fun _ => envAllOk) emptyState (0, visNoMesh) =
      emptyState ∧
    runVisuals sampleConst colorConst 1 "L6" 1 (fun _ => envAllOk) [(0, visNoMesh)]
        emptyState =
      runVisuals sampleConst colorConst 1 "L6" 1 (fun _ => envAllOk) [] emptyState :=
  failed_visual_skipped_loop_continues sampleConst colorConst 1 "L6" 1 (fun _ => envAllOk)
    emptyState 0 visNoMesh []
    (by intro f pts cols h; simp [processVisual, visNoMesh] at h)

/-- Claim C9: when no visual produced any points over the whole run, the
    combined cloud is not written, the warning is issued, and the
    per-visual files already written are carried into the result
    unchanged. -/
theorem no_points_no_combined_file
    (sample : Mesh → ℕ → List Vec3) (colorFor : String → ColorB)
    (linkTfOf : String → Mat4) (envOf : String → ℕ → VisEnv) (links : List Link)
    (hempty : (runLoop sample colorFor linkTfOf envOf links).allPoints = []) :
    (runMain sample colorFor linkTfOf envOf links).combined = none ∧
    (runMain sample colorFor linkTfOf envOf links).noPointsWarning = true ∧
    (runMain sample colorFor linkTfOf envOf links).files =
      (runLoop sample colorFor linkTfOf envOf links).files := by
  rw [runMain]
  unfold finalizeRun
  rw [hempty]
  exact ⟨rfl, rfl, rfl⟩

theorem no_points_no_combined_file_check :
    (runLoop sampleConst colorConst linkTfConst (fun _ _ => envAllOk) []).allPoints = [] ∧
    (runMain sampleConst colorConst linkTfConst (fun _ _ => envAllOk) []).combined = none ∧
    (runMain sampleConst colorConst linkTfConst (fun _ _ => envAllOk) []).noPointsWarning =
      true ∧
    (runMain sampleConst colorConst linkTfConst (fun _ _ => envAllOk) []).files =
      (runLoop sampleConst colorConst linkTfConst (fun _ _ => envAllOk) []).files :=
  ⟨rfl,
   no_points_no_combined_file sampleConst colorConst linkTfConst (fun _ _ => envAllOk) [] rfl⟩

/-- Claim C10: the global buffers mirror the successfully exported
    per-visual files exactly — points and colors are appended only
    together with a successful export record, so the combined cloud holds
    contributions from exactly the visuals whose per-link file write
    succeeded — and a visual whose export step raises leaves the buffers
    unchanged. -/
theorem buffers_match_exported_files
    (sample : Mesh → ℕ → List Vec3) (colorFor : String → ColorB)
    (linkTfOf : String → Mat4) (envOf : String → ℕ → VisEnv) (links : List Link) :
    ((runLoop sample colorFor linkTfOf envOf links).allPoints =
      (runLoop sample colorFor linkTfOf envOf links).files.map ExportRec.pts ∧
     (runLoop sample colorFor linkTfOf envOf links).allColors =
      (runLoop sample colorFor linkTfOf envOf links).files.map ExportRec.cols) ∧
    (∀ (linkTf : Mat4) (linkName : String) (nvis : ℕ) (envOf2 : ℕ → VisEnv)
        (st : LoopState) (idx : ℕ) (vis : Visual),
      (envOf2 idx).exportRaises = true →
        stepVisual sample colorFor linkTf linkName nvis envOf2 st (idx, vis) = st) := by
  refine ⟨buffersMatch_runLoop sample colorFor linkTfOf envOf links, ?_⟩
  intro linkTf linkName nvis envOf2 st idx vis hexp
  exact stepVisual_of_not_success (processVisual_not_success_of_export hexp)

theorem buffers_match_exported_files_check :
    ((runLoop sampleConst colorConst linkTfConst (fun _ _ => envAllOk) []).allPoints =
      (runLoop sampleConst colorConst linkTfConst (fun _ _ => envAllOk) []).files.map
        ExportRec.pts ∧
     (runLoop sampleConst colorConst linkTfConst (fun _ _ => envAllOk) []).allColors =
      (runLoop sampleConst colorConst linkTfConst (fun _ _ => envAllOk) []).files.map
        ExportRec.cols) ∧
    stepVisual sampleConst colorConst 1 "L6" 1 (fun _ => envExportFail) emptyState
      (0, Visual.mk none (some (MeshGeom.mk "meshes/L6.stl" none))) = emptyState := by
  have h := buffers_match_exported_files sampleConst colorConst linkTfConst
    (fun _ _ => envAllOk) []
  exact ⟨h.1, h.2 1 "L6" 1 (fun _ => envExportFail) emptyState 0
    (Visual.mk none (some (MeshGeom.mk "meshes/L6.stl" none))) rfl⟩
